import Mathlib

/-!
# The Go web server of `main.go`: handlers, router, start-up

A shallow embedding of `src/main.go` together with the parts of the Go
standard library its behaviour rests on (`fmt`, `time`, `log`, `path`,
`net/http`), followed by the properties of the program.

Conventions of the embedding:

* a Go `string` is a `List Char` (`GoString`), that is, a string of valid UTF-8;
  every delimiter the code or the library inspects (`%`, `/`, `.`, `-`) is
  ASCII, so scanning by character agrees with Go's scanning by byte;
* a call that reads the clock takes the reading as an argument (`now`);
* a library function that is modelled on a fragment of its inputs returns
  `Option`, with `none` outside the fragment; a Go `panic` is `none` as well;
* the response writer is a record of what the handler did to it.
-/

set_option autoImplicit false

namespace Capstone

/-! ## Strings -/

/-- A Go string. -/
abbrev GoString := List Char

/-- The Go function `strings.HasPrefix`. -/
def HasPrefix (s pre : GoString) : Bool := pre.isPrefixOf s

/-! ## Package `fmt` -/

/-- An operand of a `fmt` print call: the program passes strings and, to
`log.Fatal`, one `error` (kept as the text of its `Error()` method). -/
inductive Operand where
  | string (s : GoString)
  | error (msg : GoString)
deriving DecidableEq, Repr

/-- Characters that, right after a `%`, start a flag, a width, a precision or
an argument index in `doPrintf`. Formats using them are outside the fragment. -/
def isFlagOrWidth (c : Char) : Bool :=
  c = '#' || c = '+' || c = '-' || c = ' ' || c = '*' || c = '.' || c = '[' || c.isDigit

/-- The library's `%!verb(type=value)` rendering of a verb that does not apply to a
string operand. -/
def badVerb (verb : Char) (s : GoString) : GoString :=
  "%!".toList ++ [verb] ++ "(string=".toList ++ s ++ ")".toList

/-- The library's `printArg` on the operands of this program. A string operand
is written through unchanged under `%s` and `%v` (`fmtString` appends the
bytes of the operand to the buffer); an error operand is written as its
`Error()` text. The type verb `%T` and the quoting and hexadecimal verbs are
outside the fragment. -/
def printArg (arg : Operand) (verb : Char) : Option GoString :=
  if verb = 'T' ∨ verb = 'q' ∨ verb = 'x' ∨ verb = 'X' then none
  else match arg with
    | .string s => if verb = 'v' ∨ verb = 's' then some s else some (badVerb verb s)
    | .error msg => if verb = 'v' ∨ verb = 's' then some msg else none

/-- The tail `%!(EXTRA type=value, ...)` that `doPrintf` appends when operands
are left over; empty when none is. -/
def extraArgs : List Operand → Option GoString
  | [] => some []
  | a :: as =>
    let rec items : Operand → List Operand → Option GoString
      | .string s, [] => some ("string=".toList ++ s)
      | .string s, b :: bs => (fun r => "string=".toList ++ s ++ ", ".toList ++ r) <$> items b bs
      | .error _, _ => none
    (fun r => "%!(EXTRA ".toList ++ r ++ ")".toList) <$> items a as

/-- The library's `doPrintf`, on formats made of plain text, `%%` and verbs
without flags, width, precision or argument index. Text outside a verb is
copied; a verb consumes the next operand and writes it with `printArg`; the
operand's own text is appended to the output and never scanned. -/
def doPrintf : GoString → List Operand → Option GoString
  | [], a => extraArgs a
  | c :: rest, a =>
    if c ≠ '%' then (fun out => c :: out) <$> doPrintf rest a
    else match rest with
      | [] => (fun out => "%!(NOVERB)".toList ++ out) <$> extraArgs a
      | verb :: rest =>
        if verb = '%' then (fun out => '%' :: out) <$> doPrintf rest a
        else if isFlagOrWidth verb then none
        else match a with
          | [] => (fun out => "%!".toList ++ [verb] ++ "(MISSING)".toList ++ out) <$> doPrintf rest []
          | arg :: as => do
            let s ← printArg arg verb
            let out ← doPrintf rest as
            pure (s ++ out)

/-- The Go function `fmt.Sprintf`. -/
def Sprintf (format : GoString) (a : List Operand) : Option GoString :=
  doPrintf format a

/-- The library's `doPrint`: operands in their default format, with a space
between two operands when neither is a string. -/
def doPrint : Bool → Bool → List Operand → GoString
  | _, _, [] => []
  | _, _, .string s :: as =>
    s ++ doPrint false true as
  | first, prevString, .error msg :: as =>
    (if ¬ first ∧ ¬ prevString then [' '] else []) ++ msg ++ doPrint false false as

/-- The Go function `fmt.Sprint`. -/
def Sprint (a : List Operand) : GoString := doPrint true false a

/-! ## Package `time` -/

/-- A reading of the clock, broken down as `Time.Format` sees it: the civil
date and time in the local zone and the zone's offset east of UTC in seconds.
`time.Now()` reads the wall clock, whose year is not negative. -/
structure Time where
  year : Nat
  month : Nat
  day : Nat
  hour : Nat
  minute : Nat
  second : Nat
  offset : Int
deriving DecidableEq, Repr

/-- The library's `appendInt`: a minus sign for a negative value, then the
decimal digits of its magnitude, padded with zeros on the left to `width`. -/
def appendInt (b : GoString) (x : Int) (width : Nat) : GoString :=
  let digits := Nat.toDigits 10 x.natAbs
  (if x < 0 then b ++ ['-'] else b) ++ List.replicate (width - digits.length) '0' ++ digits

/-- The zone of the layout element `Z07:00`: `Z` for UTC, otherwise the sign
and the offset as hours and minutes. Go's integer division truncates. -/
def appendZone (b : GoString) (offset : Int) : GoString :=
  if offset = 0 then b ++ ['Z']
  else
    let zone := Int.tdiv offset 60
    let b := if zone < 0 then b ++ ['-'] else b ++ ['+']
    let zone := if zone < 0 then -zone else zone
    let b := appendInt b (Int.tdiv zone 60) 2
    let b := b ++ [':']
    appendInt b (Int.tmod zone 60) 2

/-- The method `Time.Format`, on layouts built from the elements `2006`, `01`,
`02`, `15`, `04`, `05`, `Z07:00` and text that starts no layout element.
Any other character that can start a layout element gives `none`. -/
def Time.Format (t : Time) : GoString → Option GoString
  | [] => some []
  | '2' :: '0' :: '0' :: '6' :: rest => (fun r => appendInt [] t.year 4 ++ r) <$> t.Format rest
  | '0' :: '1' :: rest => (fun r => appendInt [] t.month 2 ++ r) <$> t.Format rest
  | '0' :: '2' :: rest => (fun r => appendInt [] t.day 2 ++ r) <$> t.Format rest
  | '1' :: '5' :: rest => (fun r => appendInt [] t.hour 2 ++ r) <$> t.Format rest
  | '0' :: '4' :: rest => (fun r => appendInt [] t.minute 2 ++ r) <$> t.Format rest
  | '0' :: '5' :: rest => (fun r => appendInt [] t.second 2 ++ r) <$> t.Format rest
  | 'Z' :: '0' :: '7' :: ':' :: '0' :: '0' :: ':' :: '0' :: '0' :: _ => none
  | 'Z' :: '0' :: '7' :: ':' :: '0' :: '0' :: rest => (fun r => appendZone [] t.offset ++ r) <$> t.Format rest
  | '-' :: '0' :: '7' :: _ => none
  | c :: rest =>
    if c = 'J' ∨ c = 'M' ∨ c = '0' ∨ c = '1' ∨ c = '2' ∨ c = '3' ∨ c = '4' ∨ c = '5' ∨ c = '_'
        ∨ c = 'P' ∨ c = 'p' ∨ c = 'Z' ∨ c = '.' ∨ c = ',' then none
    else (fun r => c :: r) <$> t.Format rest

/-- The layout constant `time.RFC3339`. -/
def RFC3339 : GoString := "2006-01-02T15:04:05Z07:00".toList

/-! ## Package `path` -/

/-- The backtracking of `Clean` at a `..` element: starting from the write
index `w` (already decremented once), step back while `w` is above `dotdot`
and the byte at `w` is not a slash. -/
def backtrack (out : GoString) (dotdot : Nat) : Nat → Nat
  | 0 => 0
  | w + 1 => if w + 1 > dotdot ∧ out.getD (w + 1) '/' ≠ '/' then backtrack out dotdot w else w + 1

/-- The main loop of `path.Clean`. The arguments are the unread rest of the path
(`path[r:]`), the bytes written so far (`out`, of length `out.w`) and `dotdot`;
the first argument bounds the number of iterations, each of which reads at
least one byte. -/
def cleanLoop (rooted : Bool) : Nat → GoString → GoString → Nat → GoString
  | 0, _, out, _ => out
  | _ + 1, [], out, _ => out
  | fuel + 1, c :: cs, out, dotdot =>
    if c = '/' then
      -- empty path element
      cleanLoop rooted fuel cs out dotdot
    else if c = '.' ∧ (cs = [] ∨ cs.head? = some '/') then
      -- . element
      cleanLoop rooted fuel cs out dotdot
    else if c = '.' ∧ cs.head? = some '.' ∧ (cs.tail = [] ∨ cs.tail.head? = some '/') then
      -- .. element: remove to last /
      if out.length > dotdot then
        cleanLoop rooted fuel cs.tail (out.take (backtrack out dotdot (out.length - 1))) dotdot
      else if ¬ rooted then
        let out := (if out.length > 0 then out ++ ['/'] else out) ++ ['.', '.']
        cleanLoop rooted fuel cs.tail out out.length
      else cleanLoop rooted fuel cs.tail out dotdot
    else
      -- real path element: add slash if needed, copy element
      let out := if (rooted ∧ out.length ≠ 1) ∨ (¬ rooted ∧ out.length ≠ 0) then out ++ ['/'] else out
      cleanLoop rooted fuel ((c :: cs).dropWhile (fun x => x ≠ '/'))
        (out ++ (c :: cs).takeWhile (fun x => x ≠ '/')) dotdot

/-- The Go function `path.Clean`. -/
def Clean (path : GoString) : GoString :=
  if path = [] then ['.']
  else
    let rooted : Bool := path.head? = some '/'
    let out :=
      if rooted then cleanLoop rooted path.length path.tail ['/'] 1
      else cleanLoop rooted path.length path [] 0
    if out = [] then ['.'] else out

/-! ## Package `net/http`: headers, requests, responses -/

/-- The bytes allowed in a header field name (`validHeaderFieldByte`): the
token characters of RFC 7230. -/
def validHeaderFieldByte (c : Char) : Bool :=
  c.isAlphanum || "!#$%&'*+-.^_`|~".toList.contains c

/-- The case conversion of `canonicalMIMEHeaderKey`: upper case for the first
letter and for a letter after a dash, lower case for the others. -/
def canonicalize : Bool → GoString → GoString
  | _, [] => []
  | upper, c :: cs =>
    let c := if upper ∧ 'a' ≤ c ∧ c ≤ 'z' then Char.ofNat (c.toNat - 32)
      else if ¬ upper ∧ 'A' ≤ c ∧ c ≤ 'Z' then Char.ofNat (c.toNat + 32)
      else c
    c :: canonicalize (c = '-') cs

/-- The Go function `textproto.CanonicalMIMEHeaderKey`: a key with a byte that
is not a token character is returned unchanged. -/
def CanonicalMIMEHeaderKey (s : GoString) : GoString :=
  if s.all validHeaderFieldByte then canonicalize true s else s

/-- The type `http.Header`, a map from field names to lists of values. -/
abbrev Header := List (GoString × List GoString)

/-- The method `Header.Set`: the values of the canonical key become the single
value given. -/
def Header.Set (h : Header) (key value : GoString) : Header :=
  let k := CanonicalMIMEHeaderKey key
  (k, [value]) :: h.filter (fun e => e.1 ≠ k)

/-- The method `Header.Get`: the first value of the canonical key, or the empty
string. -/
def Header.Get (h : Header) (key : GoString) : GoString :=
  match h.lookup (CanonicalMIMEHeaderKey key) with
  | some (v :: _) => v
  | _ => []

/-- The fields of `url.URL` that the router reads. -/
structure URL where
  Path : GoString
  Host : GoString
  RawQuery : GoString
deriving DecidableEq, Repr

/-- The fields of `http.Request` that the router and the handlers read. -/
structure Request where
  Method : GoString
  URL : URL
  Host : GoString
  Header : Header
  RequestURI : GoString
  ProtoMajor : Nat
  ProtoMinor : Nat
deriving DecidableEq, Repr

/-- The method `Request.UserAgent`. -/
def Request.UserAgent (r : Request) : GoString := r.Header.Get "User-Agent".toList

/-- The method `Request.ProtoAtLeast`. -/
def Request.ProtoAtLeast (r : Request) (major minor : Nat) : Bool :=
  r.ProtoMajor > major || (r.ProtoMajor = major && r.ProtoMinor ≥ minor)

/-- What a handler did to its `http.ResponseWriter`. `header` is the map returned
by `Header()`; `wroteHeader`, `status` and `sent` are the status line and the
header fields as committed by the first `WriteHeader`; `codes` lists the status
codes the handler passed to `WriteHeader` itself; `writes` lists the arguments
of the calls of `Write`, oldest first. What the server then does with the
written data (it sends no body in answer to a HEAD request) is not part of the
record. -/
structure ResponseWriter where
  header : Header
  wroteHeader : Bool
  status : Nat
  sent : Header
  codes : List Nat
  writes : List GoString
deriving DecidableEq, Repr

/-- A response writer at the start of a request. -/
def ResponseWriter.fresh : ResponseWriter :=
  { header := [], wroteHeader := false, status := 0, sent := [], codes := [], writes := [] }

/-- The call `w.Header().Set(key, value)`. -/
def ResponseWriter.setHeader (w : ResponseWriter) (key value : GoString) : ResponseWriter :=
  { w with header := w.header.Set key value }

/-- The commit of the status line and of a copy of the header map; a second
commit changes nothing. -/
def ResponseWriter.commit (w : ResponseWriter) (code : Nat) : ResponseWriter :=
  if w.wroteHeader then w
  else { w with wroteHeader := true, status := code, sent := w.header }

/-- The method `WriteHeader`, called by a handler. -/
def ResponseWriter.WriteHeader (w : ResponseWriter) (code : Nat) : ResponseWriter :=
  { w.commit code with codes := w.codes ++ [code] }

/-- The constant `http.StatusOK`. -/
def StatusOK : Nat := 200
/-- The constant `http.StatusMovedPermanently`. -/
def StatusMovedPermanently : Nat := 301
/-- The constant `http.StatusBadRequest`. -/
def StatusBadRequest : Nat := 400
/-- The constant `http.StatusNotFound`. -/
def StatusNotFound : Nat := 404

/-- The method `Write`: when no status was committed, `StatusOK` is; then the
data goes to the body. -/
def ResponseWriter.Write (w : ResponseWriter) (data : GoString) : ResponseWriter :=
  let w := if w.wroteHeader then w else w.commit StatusOK
  { w with writes := w.writes ++ [data] }

/-- The body of the response: the written data in order. -/
def ResponseWriter.body (w : ResponseWriter) : GoString := w.writes.flatten

/-- The Go function `fmt.Fprint`: the operands are formatted into one buffer,
which is passed to `Write` once. -/
def Fprint (w : ResponseWriter) (a : List Operand) : ResponseWriter :=
  w.Write (Sprint a)

/-- The Go function `fmt.Fprintln` on one string operand. -/
def Fprintln (w : ResponseWriter) (s : GoString) : ResponseWriter :=
  w.Write (s ++ ['\n'])

/-- The Go function `http.Error`. -/
def Error (w : ResponseWriter) (error : GoString) (code : Nat) : ResponseWriter :=
  let w := w.setHeader "Content-Type".toList "text/plain; charset=utf-8".toList
  let w := w.setHeader "X-Content-Type-Options".toList "nosniff".toList
  let w := w.WriteHeader code
  Fprintln w error

/-- The Go function `http.NotFound`. -/
def NotFound (w : ResponseWriter) : ResponseWriter :=
  Error w "404 page not found".toList StatusNotFound

/-! ## Package `net/http`: the request multiplexer

The multiplexer is `ServeMux` with its documented matching: a pattern that
ends in a slash names a subtree, any other pattern a single path, and the
longest matching pattern wins. The embedding follows the implementation with the
map `m` and the sorted slice `es`; patterns with a method or a wildcard, which a
later implementation adds, do not occur in this program. -/

/-- The functions of `main.go` that are registered as handlers. -/
inductive HandlerFunc where
  | helloHandler
  | apiHandler
deriving DecidableEq, Repr

/-- The values of the interface `http.Handler` that occur in this program: the
two handler functions and the handlers the multiplexer makes itself. A redirect
handler carries the target as the URL fields it is built from. -/
inductive Handler where
  | HandlerFunc (f : HandlerFunc)
  | NotFoundHandler
  | RedirectHandler (path rawQuery : GoString) (code : Nat)
deriving DecidableEq, Repr

/-- An entry of the multiplexer. -/
structure muxEntry where
  h : Handler
  pattern : GoString
deriving DecidableEq, Repr

/-- The type `http.ServeMux`: the map `m` from patterns to entries, the slice `es`
of the entries whose pattern ends in a slash, longest first, and `hosts`, set
when some pattern names a host. -/
structure ServeMux where
  m : List (GoString × muxEntry)
  es : List muxEntry
  hosts : Bool
deriving DecidableEq, Repr

/-- The Go function `http.NewServeMux`. -/
def NewServeMux : ServeMux := { m := [], es := [], hosts := false }

/-- The library's `appendSorted`: insert before the first entry with a shorter
pattern. -/
def appendSorted : List muxEntry → muxEntry → List muxEntry
  | [], e => [e]
  | x :: xs, e =>
    if x.pattern.length < e.pattern.length then e :: x :: xs else x :: appendSorted xs e

/-- The method `ServeMux.Handle`; `none` is a panic (empty pattern or a pattern
registered twice). -/
def ServeMux.Handle (mux : ServeMux) (pattern : GoString) (handler : Handler) : Option ServeMux :=
  if pattern = [] then none
  else if (mux.m.lookup pattern).isSome then none
  else
    let e : muxEntry := { h := handler, pattern := pattern }
    some {
      m := (pattern, e) :: mux.m
      es := if pattern.getLast? = some '/' then appendSorted mux.es e else mux.es
      hosts := if pattern.head? ≠ some '/' then true else mux.hosts }

/-- The method `ServeMux.HandleFunc`. -/
def ServeMux.HandleFunc (mux : ServeMux) (pattern : GoString) (handler : HandlerFunc) :
    Option ServeMux :=
  mux.Handle pattern (Handler.HandlerFunc handler)

/-- The method `ServeMux.match`: an exact match first, then the first entry of
`es` whose pattern starts the path. -/
def ServeMux.match (mux : ServeMux) (path : GoString) : Option (Handler × GoString) :=
  match mux.m.lookup path with
  | some v => some (v.h, v.pattern)
  | none =>
    match mux.es.find? (fun e => HasPrefix path e.pattern) with
    | some e => some (e.h, e.pattern)
    | none => none

/-- The method `ServeMux.handler`. -/
def ServeMux.handler (mux : ServeMux) (host path : GoString) : Handler × GoString :=
  -- Host-specific pattern takes precedence over generic ones
  let r := if mux.hosts then mux.match (host ++ path) else none
  let r := if r.isNone then mux.match path else r
  match r with
  | some hp => hp
  | none => (Handler.NotFoundHandler, [])

/-- The method `ServeMux.shouldRedirectRLocked`. -/
def ServeMux.shouldRedirectRLocked (mux : ServeMux) (host path : GoString) : Bool :=
  let p := [path, host ++ path]
  if p.any (fun c => (mux.m.lookup c).isSome) then false
  else if path.length = 0 then false
  else if p.any (fun c => (mux.m.lookup (c ++ ['/'])).isSome) then path.getLast? ≠ some '/'
  else false

/-- The method `ServeMux.redirectToPathSlash`: the path to redirect to, when the
path itself is not registered and the path with a slash added is. -/
def ServeMux.redirectToPathSlash (mux : ServeMux) (host path : GoString) : Option GoString :=
  if mux.shouldRedirectRLocked host path then some (path ++ ['/']) else none

/-- The library's `cleanPath`: the canonical path, keeping a final slash. -/
def cleanPath (p : GoString) : GoString :=
  if p = [] then ['/']
  else
    let p := if p.head? ≠ some '/' then '/' :: p else p
    let np := Clean p
    -- path.Clean removes trailing slash except for root;
    -- put the trailing slash back if necessary.
    if p.getLast? = some '/' ∧ np ≠ ['/'] then
      if p.length = np.length + 1 ∧ HasPrefix p np then p else np ++ ['/']
    else np

/-- The method `ServeMux.Handler`: the handler for a request and the pattern
that matched. The library's `stripHostPort` is an argument; no pattern of this
program names a host. -/
def ServeMux.Handler (stripHostPort : GoString → GoString) (mux : ServeMux) (r : Request) :
    Handler × GoString :=
  -- CONNECT requests are not canonicalized.
  if r.Method = "CONNECT".toList then
    match mux.redirectToPathSlash r.URL.Host r.URL.Path with
    | some path => (Handler.RedirectHandler path r.URL.RawQuery StatusMovedPermanently, path)
    | none => mux.handler r.Host r.URL.Path
  else
    -- All other requests have any port stripped and path cleaned
    let host := stripHostPort r.Host
    let path := cleanPath r.URL.Path
    match mux.redirectToPathSlash host path with
    | some path => (Handler.RedirectHandler path r.URL.RawQuery StatusMovedPermanently, path)
    | none =>
      if path ≠ r.URL.Path then
        (Handler.RedirectHandler path r.URL.RawQuery StatusMovedPermanently, (mux.handler host path).2)
      else mux.handler host r.URL.Path

/-! ## Package `log` -/

/-- The header of a log line under the standard flags: date and time of the
clock reading, each followed by a space. -/
def formatHeader (t : Time) : GoString :=
  appendInt [] t.year 4 ++ ['/'] ++ appendInt [] t.month 2 ++ ['/'] ++ appendInt [] t.day 2 ++ [' ']
    ++ appendInt [] t.hour 2 ++ [':'] ++ appendInt [] t.minute 2 ++ [':'] ++ appendInt [] t.second 2
    ++ [' ']

/-- The line the standard logger writes for a message: header, message, and a
newline unless the message ends in one. -/
def logOutput (now : Time) (s : GoString) : GoString :=
  formatHeader now ++ s ++ (if s.getLast? = some '\n' then [] else ['\n'])

/-- The state of the process as far as `main` drives it: what was written to
standard output and to standard error, and the exit status once the process has
ended. -/
structure Process where
  stdout : GoString
  stderr : GoString
  exit : Option Nat
deriving DecidableEq, Repr

/-- The Go function `fmt.Printf` on standard output. -/
def Printf (p : Process) (format : GoString) (a : List Operand) : Option Process :=
  (fun s => { p with stdout := p.stdout ++ s }) <$> Sprintf format a

/-- The Go function `log.Fatal`: the operands as `fmt.Sprint` joins them go to the
standard logger, which writes to standard error, then `os.Exit(1)`. -/
def Fatal (p : Process) (now : Time) (v : List Operand) : Process :=
  { p with stderr := p.stderr ++ logOutput now (Sprint v), exit := some 1 }

/-! ## The program: `main.go` -/

/-- The "\n\t<!DOCTYPE html>\n\t<html>\n\t<head>\n\t\t<title>Go Web Server - Hello World</title>\n\t\t<style>\n\t\t\tbody \x7b \n\t\t\t\tfont-family: Arial, sans-serif; \n\t\t\t\tmax-width: 800px; \n\t\t\t\tmargin: 50px auto; \n\t\t\t\tpadding: 20px;\n\t\t\t\tbackground-color: #f5f5f5;\n\t\t\t\x7d\n\t\t\t.container \x7b\n\t\t\t\tbackground: white;\n\t\t\t\tpadding: 30px;\n\t\t\t\tborder-radius: 10px;\n\t\t\t\tbox-shadow: 0 2px 10px rgba(0,0,0,0.1);\n\t\t\t\x7d\n\t\t\th1 \x7b color: #00ADD8; \x7d\n\t\t\t.info \x7b \n\t\t\t\tbackground: #e8f4f8; \n\t\t\t\tpadding: 15px; \n\t\t\t\tborder-radius: 5px; \n\t\t\t\tmargin: 20px 0;\n\t\t\t\x7d\n\t\t</style>\n\t</head>\n\t<body>\n\t\t<div class=\"container\">\n\t\t\t<h1> Hello World from Go!</h1>\n\t\t\t<p>Congratulations! Your Go web server is running successfully.</p>\n\t\t\t<div class=\"info\">\n\t\t\t\t<strong>Server Info:</strong><br>\n\t\t\t\tTime: %s<br>\n\t\t\t\tMethod: %s<br>\n\t\t\t\tURL Path: %s<br>\n\t\t\t\tUser Agent: %s\n\t\t\t</div>\n\t\t\t<p>This is a simple HTTP server built with Go's standard library.</p>\n\t\t</div>\n\t</body>\n\t</html>\n\t" template of `helloHandler` (the raw string literal `html`). -/
def html : GoString :=
  "\n\t<!DOCTYPE html>\n\t<html>\n\t<head>\n\t\t<title>Go Web Server - Hello World</title>\n\t\t<style>\n\t\t\tbody \x7b \n\t\t\t\tfont-family: Arial, sans-serif; \n\t\t\t\tmax-width: 800px; \n\t\t\t\tmargin: 50px auto; \n\t\t\t\tpadding: 20px;\n\t\t\t\tbackground-color: #f5f5f5;\n\t\t\t\x7d\n\t\t\t.container \x7b\n\t\t\t\tbackground: white;\n\t\t\t\tpadding: 30px;\n\t\t\t\tborder-radius: 10px;\n\t\t\t\tbox-shadow: 0 2px 10px rgba(0,0,0,0.1);\n\t\t\t\x7d\n\t\t\th1 \x7b color: #00ADD8; \x7d\n\t\t\t.info \x7b \n\t\t\t\tbackground: #e8f4f8; \n\t\t\t\tpadding: 15px; \n\t\t\t\tborder-radius: 5px; \n\t\t\t\tmargin: 20px 0;\n\t\t\t\x7d\n\t\t</style>\n\t</head>\n\t<body>\n\t\t<div class=\"container\">\n\t\t\t<h1> Hello World from Go!</h1>\n\t\t\t<p>Congratulations! Your Go web server is running successfully.</p>\n\t\t\t<div class=\"info\">\n\t\t\t\t<strong>Server Info:</strong><br>\n\t\t\t\tTime: %s<br>\n\t\t\t\tMethod: %s<br>\n\t\t\t\tURL Path: %s<br>\n\t\t\t\tUser Agent: %s\n\t\t\t</div>\n\t\t\t<p>This is a simple HTTP server built with Go's standard library.</p>\n\t\t</div>\n\t</body>\n\t</html>\n\t".toList

/-- The function `helloHandler` of `main.go`, the handler for the root endpoint. -/
def helloHandler (now : Time) (w : ResponseWriter) (r : Request) : Option ResponseWriter := do
  -- Set content type to "\n\t<!DOCTYPE html>\n\t<html>\n\t<head>\n\t\t<title>Go Web Server - Hello World</title>\n\t\t<style>\n\t\t\tbody \x7b \n\t\t\t\tfont-family: Arial, sans-serif; \n\t\t\t\tmax-width: 800px; \n\t\t\t\tmargin: 50px auto; \n\t\t\t\tpadding: 20px;\n\t\t\t\tbackground-color: #f5f5f5;\n\t\t\t\x7d\n\t\t\t.container \x7b\n\t\t\t\tbackground: white;\n\t\t\t\tpadding: 30px;\n\t\t\t\tborder-radius: 10px;\n\t\t\t\tbox-shadow: 0 2px 10px rgba(0,0,0,0.1);\n\t\t\t\x7d\n\t\t\th1 \x7b color: #00ADD8; \x7d\n\t\t\t.info \x7b \n\t\t\t\tbackground: #e8f4f8; \n\t\t\t\tpadding: 15px; \n\t\t\t\tborder-radius: 5px; \n\t\t\t\tmargin: 20px 0;\n\t\t\t\x7d\n\t\t</style>\n\t</head>\n\t<body>\n\t\t<div class=\"container\">\n\t\t\t<h1> Hello World from Go!</h1>\n\t\t\t<p>Congratulations! Your Go web server is running successfully.</p>\n\t\t\t<div class=\"info\">\n\t\t\t\t<strong>Server Info:</strong><br>\n\t\t\t\tTime: %s<br>\n\t\t\t\tMethod: %s<br>\n\t\t\t\tURL Path: %s<br>\n\t\t\t\tUser Agent: %s\n\t\t\t</div>\n\t\t\t<p>This is a simple HTTP server built with Go's standard library.</p>\n\t\t</div>\n\t</body>\n\t</html>\n\t"
  let w := w.setHeader "Content-Type".toList "text/html".toList
  -- Format the "\n\t<!DOCTYPE html>\n\t<html>\n\t<head>\n\t\t<title>Go Web Server - Hello World</title>\n\t\t<style>\n\t\t\tbody \x7b \n\t\t\t\tfont-family: Arial, sans-serif; \n\t\t\t\tmax-width: 800px; \n\t\t\t\tmargin: 50px auto; \n\t\t\t\tpadding: 20px;\n\t\t\t\tbackground-color: #f5f5f5;\n\t\t\t\x7d\n\t\t\t.container \x7b\n\t\t\t\tbackground: white;\n\t\t\t\tpadding: 30px;\n\t\t\t\tborder-radius: 10px;\n\t\t\t\tbox-shadow: 0 2px 10px rgba(0,0,0,0.1);\n\t\t\t\x7d\n\t\t\th1 \x7b color: #00ADD8; \x7d\n\t\t\t.info \x7b \n\t\t\t\tbackground: #e8f4f8; \n\t\t\t\tpadding: 15px; \n\t\t\t\tborder-radius: 5px; \n\t\t\t\tmargin: 20px 0;\n\t\t\t\x7d\n\t\t</style>\n\t</head>\n\t<body>\n\t\t<div class=\"container\">\n\t\t\t<h1> Hello World from Go!</h1>\n\t\t\t<p>Congratulations! Your Go web server is running successfully.</p>\n\t\t\t<div class=\"info\">\n\t\t\t\t<strong>Server Info:</strong><br>\n\t\t\t\tTime: %s<br>\n\t\t\t\tMethod: %s<br>\n\t\t\t\tURL Path: %s<br>\n\t\t\t\tUser Agent: %s\n\t\t\t</div>\n\t\t\t<p>This is a simple HTTP server built with Go's standard library.</p>\n\t\t</div>\n\t</body>\n\t</html>\n\t" with dynamic content
  let response ← Sprintf html [
    .string (← now.Format "2006-01-02 15:04:05".toList),
    .string r.Method,
    .string r.URL.Path,
    .string r.UserAgent]
  -- Write the response
  pure (Fprint w [.string response])

/-- The function `apiHandler` of `main.go`, the handler for the /api endpoint. -/
def apiHandler (now : Time) (w : ResponseWriter) (_r : Request) : Option ResponseWriter := do
  let w := w.setHeader "Content-Type".toList "application/json".toList
  let response := "\x7b\n\t\t\"message\": \"Hello world from Go API!\",\n\t\t\"timestamp\": \"".toList
    ++ (← now.Format RFC3339)
    ++ "\",\n\t\t\"status\": \"success\"\n\t\x7d".toList
  pure (Fprint w [.string response])

/-- The method `ServeHTTP` of a handler. The response of a redirect handler is
not part of the model. -/
def Handler.ServeHTTP (now : Time) (h : Handler) (w : ResponseWriter) (r : Request) :
    Option ResponseWriter :=
  match h with
  | .HandlerFunc .helloHandler => helloHandler now w r
  | .HandlerFunc .apiHandler => apiHandler now w r
  | .NotFoundHandler => some (NotFound w)
  | .RedirectHandler _ _ _ => none

/-- The method `ServeMux.ServeHTTP`: dispatch to the handler whose pattern matches
the request. -/
def ServeMux.ServeHTTP (stripHostPort : GoString → GoString) (now : Time) (mux : ServeMux)
    (w : ResponseWriter) (r : Request) : Option ResponseWriter :=
  if r.RequestURI = "*".toList then
    let w := if r.ProtoAtLeast 1 1 then w.setHeader "Connection".toList "close".toList else w
    some (w.WriteHeader StatusBadRequest)
  else
    (mux.Handler stripHostPort r).1.ServeHTTP now w r

/-- The router `main` builds: a new multiplexer with the two registrations. -/
def mainMux : Option ServeMux := do
  -- Create a new HTTP multiplexer (router)
  let mux := NewServeMux
  -- Register handlers
  let mux ← mux.HandleFunc "/".toList .helloHandler
  let mux ← mux.HandleFunc "/api".toList .apiHandler
  pure mux

/-- The function `main` of `main.go`. `ListenAndServe` stands for the library call,
which serves until it fails and then returns its error (`none` for `nil`); `now`
is the clock reading when the logger writes. The result is the final state of the
process. -/
def main (ListenAndServe : GoString → ServeMux → Option GoString) (now : Time) :
    Option Process := do
  let mux ← mainMux
  -- Define the port
  let port := ":8080".toList
  let p : Process := { stdout := [], stderr := [], exit := none }
  -- Print startup message
  let p ← Printf p "Go web server starting...\n".toList []
  let p ← Printf p " Server running on http://localhost%s\n".toList [.string port]
  let p ← Printf p " Visit http://localhost%s in your browser\n".toList [.string port]
  let p ← Printf p " API endpoint: http://localhost%s/api\n".toList [.string port]
  let p ← Printf p "  Press Ctrl+C to stop the server\n\n".toList []
  -- Start the server
  match ListenAndServe port mux with
  | some err => pure (Fatal p now [.string "Server failed to start:".toList, .error err])
  | none => pure { p with exit := some 0 }

/-! ## Reading a JSON object

The meaning of "the body parses as a JSON object with the fields ...": a reader
for JSON objects whose member values are strings. It accepts only texts of the
JSON grammar and returns the members in textual order; a string with an escape
or a control character is outside the reader (`none`). -/

/-- A character that stands for itself inside a JSON string. -/
def isPlainChar (c : Char) : Bool := c ≠ '"' && c ≠ '\\' && 32 ≤ c.toNat

/-- The text of the template before the first verb. -/
def htmlHead : GoString :=
  "\n\t<!DOCTYPE html>\n\t<html>\n\t<head>\n\t\t<title>Go Web Server - Hello World</title>\n\t\t<style>\n\t\t\tbody \x7b \n\t\t\t\tfont-family: Arial, sans-serif; \n\t\t\t\tmax-width: 800px; \n\t\t\t\tmargin: 50px auto; \n\t\t\t\tpadding: 20px;\n\t\t\t\tbackground-color: #f5f5f5;\n\t\t\t\x7d\n\t\t\t.container \x7b\n\t\t\t\tbackground: white;\n\t\t\t\tpadding: 30px;\n\t\t\t\tborder-radius: 10px;\n\t\t\t\tbox-shadow: 0 2px 10px rgba(0,0,0,0.1);\n\t\t\t\x7d\n\t\t\th1 \x7b color: #00ADD8; \x7d\n\t\t\t.info \x7b \n\t\t\t\tbackground: #e8f4f8; \n\t\t\t\tpadding: 15px; \n\t\t\t\tborder-radius: 5px; \n\t\t\t\tmargin: 20px 0;\n\t\t\t\x7d\n\t\t</style>\n\t</head>\n\t<body>\n\t\t<div class=\"container\">\n\t\t\t<h1> Hello World from Go!</h1>\n\t\t\t<p>Congratulations! Your Go web server is running successfully.</p>\n\t\t\t<div class=\"info\">\n\t\t\t\t<strong>Server Info:</strong><br>\n\t\t\t\tTime: ".toList

/-- The text of the template between the first and the second verb. -/
def htmlMethod : GoString :=
  "<br>\n\t\t\t\tMethod: ".toList

/-- The text of the template between the second and the third verb. -/
def htmlPath : GoString :=
  "<br>\n\t\t\t\tURL Path: ".toList

/-- The text of the template between the third and the fourth verb. -/
def htmlAgent : GoString :=
  "<br>\n\t\t\t\tUser Agent: ".toList

/-- The text of the template after the fourth verb. -/
def htmlTail : GoString :=
  "\n\t\t\t</div>\n\t\t\t<p>This is a simple HTTP server built with Go's standard library.</p>\n\t\t</div>\n\t</body>\n\t</html>\n\t".toList

/-- The text of the JSON body before the timestamp. -/
def jsonHead : GoString :=
  "\x7b\n\t\t\"message\": \"Hello world from Go API!\",\n\t\t\"timestamp\": \"".toList

/-- The text of the JSON body after the timestamp. -/
def jsonTail : GoString :=
  "\",\n\t\t\"status\": \"success\"\n\t\x7d".toList

/-- The Go function `len` on a string: its length in bytes, the string being
encoded as UTF-8. -/
def len (s : GoString) : Nat := (s.map Char.utf8Size).sum

/-- The elements of a path: the pieces between its slashes. -/
def elements : GoString → List GoString
  | [] => [[]]
  | c :: cs =>
    if c = '/' then [] :: elements cs
    else match elements cs with
      | [] => [[c]]
      | e :: es => (c :: e) :: es

/-- A path in canonical form: it starts with a slash, no element after that slash
is empty, except that the last one may be (the path is `/` or ends in a slash), and
no element is `.` or `..`. -/
def isCanonical (p : GoString) : Bool :=
  p.head? = some '/'
    && (elements p.tail).dropLast.all (fun e => e ≠ [])
    && (elements p.tail).all (fun e => e ≠ ['.'] && e ≠ ['.', '.'])

/-- The multiplexer after the two registrations of `main`, written out. -/
def registered : ServeMux :=
  { m := [("/api".toList, { h := .HandlerFunc .apiHandler, pattern := "/api".toList }),
          ("/".toList, { h := .HandlerFunc .helloHandler, pattern := "/".toList })]
    es := [{ h := .HandlerFunc .helloHandler, pattern := "/".toList }]
    hosts := false }

/-- A request as the server hands it to the router: method, path and the
value of the User-Agent field, sent to `localhost:8080` over HTTP/1.1. -/
def request (method path agent : String) : Request :=
  { Method := method.toList
    URL := { Path := path.toList, Host := [], RawQuery := [] }
    Host := "localhost:8080".toList
    Header := [("User-Agent".toList, [agent.toList])]
    RequestURI := path.toList
    ProtoMajor := 1
    ProtoMinor := 1 }

/-- A reading of the clock: 9 March 2024, 12:30:05, UTC. -/
def noon : Time :=
  { year := 2024, month := 3, day := 9, hour := 12, minute := 30, second := 5, offset := 0 }

/-- The library's `stripHostPort` on a host of the form `name` or `name:port`. -/
def dropPort (h : GoString) : GoString := h.takeWhile (fun c => c ≠ ':')

/-- The page `helloHandler` renders: the pieces of the template around the
formatted time, the method, the path and the user agent of the request. -/
def page (ts : GoString) (r : Request) : GoString :=
  htmlHead ++ ts ++ htmlMethod ++ r.Method ++ htmlPath ++ r.URL.Path ++ htmlAgent ++ r.UserAgent
    ++ htmlTail

/-- The response writer after one `Header().Set` of the content type and one
`Write` of a body, from a fresh state. -/
def written (contentType body : GoString) : ResponseWriter :=
  { header := [("Content-Type".toList, [contentType])]
    wroteHeader := true
    status := 200
    sent := [("Content-Type".toList, [contentType])]
    codes := []
    writes := [body] }

/-- The characters a formatted time is made of. -/
def isTimeChar (c : Char) : Bool :=
  c.isDigit || c = '-' || c = '+' || c = ':' || c = 'T' || c = 'Z'

/-- The elements joined by slashes. -/
def joinSlash : List GoString → GoString
  | [] => []
  | [e] => e
  | e :: es => e ++ '/' :: joinSlash es

/-- A string without its final slash, if it has one. -/
def stripSlash (s : GoString) : GoString :=
  if s.getLast? = some '/' then s.dropLast else s

/-- The process when `ListenAndServe` is called: the banner is on standard
output. -/
def started : Process :=
  { stdout := ("Go web server starting...\n Server running on http://localhost:8080\n"
      ++ " Visit http://localhost:8080 in your browser\n"
      ++ " API endpoint: http://localhost:8080/api\n"
      ++ "  Press Ctrl+C to stop the server\n\n").toList
    stderr := []
    exit := none }

/-! # Proofs -/

/-! ## Lemmas on `fmt` -/

theorem doPrintf_char (c : Char) (rest : GoString) (a : List Operand) (hc : c ≠ '%') :
    doPrintf (c :: rest) a = (fun out => c :: out) <$> doPrintf rest a := by
  conv_lhs => rw [doPrintf.eq_def]
  simp [hc]

theorem doPrintf_text (l rest : GoString) (a : List Operand) (h : '%' ∉ l) :
    doPrintf (l ++ rest) a = (fun out => l ++ out) <$> doPrintf rest a := by
  induction l with
  | nil => simp
  | cons c l ih =>
    have hc : c ≠ '%' := fun e => h (by simp [e])
    have hl : '%' ∉ l := fun e => h (by simp [e])
    rw [List.cons_append, doPrintf_char _ _ _ hc, ih hl]
    simp [Option.map_map, Function.comp_def]

theorem doPrintf_verb_s (rest s : GoString) (as : List Operand) :
    doPrintf ('%' :: 's' :: rest) (.string s :: as) = (fun out => s ++ out) <$> doPrintf rest as := by
  conv_lhs => rw [doPrintf.eq_def]
  simp [isFlagOrWidth, printArg]
  rcases doPrintf rest as with _ | out <;> rfl

set_option maxRecDepth 100000 in
theorem html_eq : html = htmlHead ++ '%' :: 's' :: (htmlMethod ++ '%' :: 's' :: (htmlPath ++ '%' :: 's' :: (htmlAgent ++ '%' :: 's' :: (htmlTail ++ [])))) := by
  decide

set_option maxRecDepth 100000 in
theorem html_text : '%' ∉ htmlHead ∧ '%' ∉ htmlMethod ∧ '%' ∉ htmlPath ∧ '%' ∉ htmlAgent ∧ '%' ∉ htmlTail := by
  decide

theorem Sprintf_html (t m p u : GoString) :
    Sprintf html [.string t, .string m, .string p, .string u]
      = some (htmlHead ++ t ++ htmlMethod ++ m ++ htmlPath ++ p ++ htmlAgent ++ u ++ htmlTail) := by
  obtain ⟨h0, h1, h2, h3, h4⟩ := html_text
  rw [Sprintf, html_eq, doPrintf_text _ _ _ h0, doPrintf_verb_s, doPrintf_text _ _ _ h1, doPrintf_verb_s,
    doPrintf_text _ _ _ h2, doPrintf_verb_s, doPrintf_text _ _ _ h3, doPrintf_verb_s,
    doPrintf_text _ _ _ h4]
  simp [doPrintf, extraArgs]

theorem Format_DateTime (t : Time) :
    t.Format "2006-01-02 15:04:05".toList = some (appendInt [] t.year 4 ++ '-' :: (appendInt [] t.month 2
      ++ '-' :: (appendInt [] t.day 2 ++ ' ' :: (appendInt [] t.hour 2 ++ ':' :: (appendInt [] t.minute 2
      ++ ':' :: (appendInt [] t.second 2 ++ [])))))) := by
  rfl

theorem Format_RFC3339 (t : Time) :
    t.Format RFC3339 = some (appendInt [] t.year 4 ++ '-' :: (appendInt [] t.month 2
      ++ '-' :: (appendInt [] t.day 2 ++ 'T' :: (appendInt [] t.hour 2 ++ ':' :: (appendInt [] t.minute 2
      ++ ':' :: (appendInt [] t.second 2 ++ (appendZone [] t.offset ++ []))))))) := by
  rfl

/-! ## Lemmas on `time` -/

theorem digitChar_isDigit (n : Nat) (h : n < 10) : (Nat.digitChar n).isDigit = true := by
  interval_cases n <;> decide

theorem toDigitsCore_isDigit (fuel n : Nat) (ds : List Char) (h : ∀ c ∈ ds, c.isDigit = true) :
    ∀ c ∈ Nat.toDigitsCore 10 fuel n ds, c.isDigit = true := by
  induction fuel generalizing n ds with
  | zero => simpa [Nat.toDigitsCore] using h
  | succ fuel ih =>
    have hd : (Nat.digitChar (n % 10)).isDigit = true := digitChar_isDigit _ (Nat.mod_lt _ (by decide))
    have hds : ∀ c ∈ Nat.digitChar (n % 10) :: ds, c.isDigit = true := by
      intro c hc
      rcases List.mem_cons.1 hc with rfl | hc
      · exact hd
      · exact h c hc
    rw [Nat.toDigitsCore]
    split
    · exact hds
    · exact ih _ _ hds

theorem toDigits_isDigit (n : Nat) : ∀ c ∈ Nat.toDigits 10 n, c.isDigit = true :=
  toDigitsCore_isDigit _ _ _ (by simp)

theorem isTimeChar_of_isDigit (c : Char) (h : c.isDigit = true) : isTimeChar c = true := by
  simp [isTimeChar, h]

theorem appendInt_timeChars (b : GoString) (x : Int) (width : Nat)
    (hb : ∀ c ∈ b, isTimeChar c = true) : ∀ c ∈ appendInt b x width, isTimeChar c = true := by
  intro c hc
  simp only [appendInt, List.mem_append, List.mem_replicate] at hc
  rcases hc with (hc | ⟨_, rfl⟩) | hc
  · split at hc
    · rcases List.mem_append.1 hc with hc | hc
      · exact hb c hc
      · rw [List.mem_singleton.1 hc]; decide
    · exact hb c hc
  · decide
  · exact isTimeChar_of_isDigit c (toDigits_isDigit _ c hc)

theorem appendZone_timeChars (offset : Int) : ∀ c ∈ appendZone [] offset, isTimeChar c = true := by
  intro c hc
  unfold appendZone at hc
  split at hc
  · have hz : c = 'Z' := by simpa using hc
    subst hz; decide
  · refine appendInt_timeChars _ _ _ ?_ c hc
    intro d hd
    rcases List.mem_append.1 hd with hd | hd
    · refine appendInt_timeChars _ _ _ ?_ d hd
      intro e he
      split at he
      · have hz : e = '-' := by simpa using he
        subst hz; decide
      · have hz : e = '+' := by simpa using he
        subst hz; decide
    · rw [List.mem_singleton.1 hd]; decide

theorem Format_RFC3339_timeChars (t : Time) :
    ∃ ts, t.Format RFC3339 = some ts ∧ ∀ c ∈ ts, isTimeChar c = true := by
  refine ⟨_, Format_RFC3339 t, ?_⟩
  intro c hc
  have hi := fun (x : Int) (w : Nat) => appendInt_timeChars [] x w (by simp)
  simp only [List.mem_append, List.mem_cons, List.mem_nil_iff, or_false] at hc
  rcases hc with hc | rfl | hc | rfl | hc | rfl | hc | rfl | hc | rfl | hc | hc
  all_goals first
    | exact hi _ _ c hc
    | exact appendZone_timeChars _ c hc
    | decide

theorem isPlainChar_of_isTimeChar (c : Char) (h : isTimeChar c = true) : isPlainChar c = true := by
  simp only [isTimeChar, Bool.or_eq_true, decide_eq_true_eq, Char.isDigit, Bool.and_eq_true] at h
  simp only [isPlainChar, Bool.and_eq_true, decide_eq_true_eq, bne_iff_ne, ne_eq]
  rcases h with ((((h | rfl) | rfl) | rfl) | rfl) | rfl
  · have h1 : 48 ≤ c.toNat := by simpa [Char.toNat] using h.1
    have h2 : c.toNat ≤ 57 := by simpa [Char.toNat] using h.2
    refine ⟨⟨?_, ?_⟩, by omega⟩
    · rintro rfl; revert h1; decide
    · rintro rfl; revert h2; decide
  all_goals decide

/-! ## Lemmas on the JSON reader -/

theorem helloHandler_eq (now : Time) (w : ResponseWriter) (r : Request) :
    ∃ ts, now.Format "2006-01-02 15:04:05".toList = some ts ∧
      helloHandler now w r = some ((w.setHeader "Content-Type".toList "text/html".toList).Write
        (htmlHead ++ ts ++ htmlMethod ++ r.Method ++ htmlPath ++ r.URL.Path ++ htmlAgent
          ++ r.UserAgent ++ htmlTail)) := by
  obtain ⟨ts, hts⟩ : ∃ ts, now.Format "2006-01-02 15:04:05".toList = some ts :=
    ⟨_, Format_DateTime now⟩
  refine ⟨ts, hts, ?_⟩
  unfold helloHandler
  rw [hts]
  simp only [Option.bind_eq_bind, Option.some_bind, Sprintf_html, Fprint, Sprint, doPrint,
    List.append_nil]
  rfl

theorem apiHandler_eq (now : Time) (w : ResponseWriter) (r : Request) :
    ∃ ts, now.Format RFC3339 = some ts ∧ (∀ c ∈ ts, isPlainChar c = true) ∧
      apiHandler now w r = some ((w.setHeader "Content-Type".toList "application/json".toList).Write
        (jsonHead ++ ts ++ jsonTail)) := by
  obtain ⟨ts, hts, hc⟩ := Format_RFC3339_timeChars now
  refine ⟨ts, hts, fun c h => isPlainChar_of_isTimeChar c (hc c h), ?_⟩
  unfold apiHandler
  rw [hts]
  simp only [Option.bind_eq_bind, Option.some_bind, Fprint, Sprint, doPrint, List.append_nil]
  rfl

theorem fresh_write (k v data : GoString) :
    ((ResponseWriter.fresh.setHeader k v).Write data) =
      { header := [(CanonicalMIMEHeaderKey k, [v])], wroteHeader := true, status := 200,
        sent := [(CanonicalMIMEHeaderKey k, [v])], codes := [], writes := [data] } := by
  simp [ResponseWriter.fresh, ResponseWriter.setHeader, ResponseWriter.Write, ResponseWriter.commit,
    Header.Set, StatusOK]

theorem contentType_canonical : CanonicalMIMEHeaderKey "Content-Type".toList = "Content-Type".toList := by
  decide

theorem len_append (a b : GoString) : len (a ++ b) = len a + len b := by
  simp [len]

/-! ## Lemmas on `path.Clean` -/

theorem elements_ne_nil (t : GoString) : elements t ≠ [] := by
  cases t with
  | nil => simp [elements]
  | cons c cs =>
    rw [elements]
    split
    · simp
    · split <;> simp

theorem joinSlash_elements (t : GoString) : joinSlash (elements t) = t := by
  induction t with
  | nil => rfl
  | cons c cs ih =>
    rw [elements]
    split
    · next h =>
      have hne := elements_ne_nil cs
      rcases hes : elements cs with _ | ⟨e, es⟩
      · exact absurd hes hne
      · rw [hes] at ih
        simp only [joinSlash, List.nil_append, ih, h]
    · next h =>
      have hne := elements_ne_nil cs
      rcases hes : elements cs with _ | ⟨e, es⟩
      · exact absurd hes hne
      · rw [hes] at ih
        cases es with
        | nil => simpa [joinSlash] using ih
        | cons e2 es => simpa [joinSlash] using ih

theorem elements_no_slash (t : GoString) : ∀ e ∈ elements t, '/' ∉ e := by
  induction t with
  | nil => simp [elements]
  | cons c cs ih =>
    rw [elements]
    split
    · next h =>
      intro e he
      rcases List.mem_cons.1 he with rfl | he
      · simp
      · exact ih e he
    · next h =>
      rcases hes : elements cs with _ | ⟨e, es⟩
      · simp
        exact fun e => h e.symm
      · rw [hes] at ih
        intro x hx
        rcases List.mem_cons.1 hx with rfl | hx
        · intro hmem
          rcases List.mem_cons.1 hmem with hc | hc
          · exact h hc.symm
          · exact ih e (by simp) hc
        · exact ih x (by simp [hx])

theorem takeWhile_element (e rest : GoString) (hs : '/' ∉ e) (hr : rest = [] ∨ rest.head? = some '/') :
    (e ++ rest).takeWhile (fun x => x ≠ '/') = e := by
  induction e with
  | nil =>
    rcases hr with rfl | hr
    · rfl
    · cases rest with
      | nil => rfl
      | cons c cs =>
        have : c = '/' := by simpa using hr
        simp [List.takeWhile, this]
  | cons c cs ih =>
    have hc : c ≠ '/' := fun h => hs (by simp [h])
    have hcs : '/' ∉ cs := fun h => hs (by simp [h])
    simpa [List.takeWhile, hc] using ih hcs

theorem dropWhile_element (e rest : GoString) (hs : '/' ∉ e) (hr : rest = [] ∨ rest.head? = some '/') :
    (e ++ rest).dropWhile (fun x => x ≠ '/') = rest := by
  induction e with
  | nil =>
    rcases hr with rfl | hr
    · rfl
    · cases rest with
      | nil => rfl
      | cons c cs =>
        have : c = '/' := by simpa using hr
        simp [List.dropWhile, this]
  | cons c cs ih =>
    have hc : c ≠ '/' := fun h => hs (by simp [h])
    have hcs : '/' ∉ cs := fun h => hs (by simp [h])
    simpa [List.dropWhile, hc] using ih hcs

/-- One iteration of the loop at a real path element copies the element. -/
theorem cleanLoop_element (fuel : Nat) (e rest out : GoString) (he : e ≠ []) (hs : '/' ∉ e)
    (hd : e ≠ ['.']) (hdd : e ≠ ['.', '.']) (hr : rest = [] ∨ rest.head? = some '/') :
    cleanLoop true (fuel + 1) (e ++ rest) out 1
      = cleanLoop true fuel rest ((if out.length ≠ 1 then out ++ ['/'] else out) ++ e) 1 := by
  cases e with
  | nil => exact absurd rfl he
  | cons c cs =>
    have hc : c ≠ '/' := fun h => hs (by simp [h])
    have hcs : '/' ∉ cs := fun h => hs (by simp [h])
    have h2 : ¬ (c = '.' ∧ (cs ++ rest = [] ∨ (cs ++ rest).head? = some '/')) := by
      rintro ⟨rfl, h⟩
      cases cs with
      | nil => exact hd rfl
      | cons d ds =>
        rcases h with h | h
        · simp at h
        · have : d = '/' := by simpa using h
          exact hcs (by simp [this])
    have h3 : ¬ (c = '.' ∧ (cs ++ rest).head? = some '.'
        ∧ ((cs ++ rest).tail = [] ∨ (cs ++ rest).tail.head? = some '/')) := by
      rintro ⟨rfl, h, h'⟩
      cases cs with
      | nil =>
        rcases hr with rfl | hr
        · simp at h
        · rw [List.nil_append, hr] at h
          revert h; decide
      | cons d ds =>
        have hd' : d = '.' := by simpa using h
        subst hd'
        cases ds with
        | nil => exact hdd rfl
        | cons x xs =>
          rcases h' with h' | h'
          · simp at h'
          · have : x = '/' := by simpa using h'
            exact hcs (by simp [this])
    have ht := takeWhile_element (c :: cs) rest hs hr
    have hdw := dropWhile_element (c :: cs) rest hs hr
    rw [List.cons_append] at ht hdw ⊢
    rw [cleanLoop]
    simp only [hc, if_false, h2, h3, ht, hdw]
    simp

theorem stripSlash_element (e : GoString) (hs : '/' ∉ e) : stripSlash e = e := by
  unfold stripSlash
  split
  · next h => exact absurd (List.mem_of_getLast?_eq_some h) hs
  · rfl

theorem stripSlash_step (e rest : GoString) :
    stripSlash (e ++ '/' :: rest) = if rest = [] then e else e ++ '/' :: stripSlash rest := by
  unfold stripSlash
  cases rest with
  | nil => simp [List.dropLast_concat]
  | cons c cs =>
    have h1 : (e ++ '/' :: c :: cs).getLast? = (c :: cs).getLast? := by
      rw [show e ++ '/' :: c :: cs = (e ++ ['/']) ++ (c :: cs) by simp]
      exact List.getLast?_append_of_ne_nil _ (by simp)
    have h2 : (e ++ '/' :: c :: cs).dropLast = e ++ '/' :: (c :: cs).dropLast := by
      rw [List.dropLast_append_cons]; rfl
    rw [h1, h2]
    simp only [reduceCtorEq, if_false]
    split <;> rfl

theorem cleanLoop_nil (fuel : Nat) (out : GoString) (dotdot : Nat) :
    cleanLoop true fuel [] out dotdot = out := by
  cases fuel <;> rfl

theorem cleanLoop_slash (fuel : Nat) (rest out : GoString) (dotdot : Nat) :
    cleanLoop true (fuel + 1) ('/' :: rest) out dotdot = cleanLoop true fuel rest out dotdot := by
  simp [cleanLoop]

/-- On a path made of real elements the loop copies the path, without a final
slash. -/
theorem cleanLoop_elements (es : List GoString) (h1 : ∀ e ∈ es, '/' ∉ e)
    (h2 : ∀ e ∈ es.dropLast, e ≠ []) (h3 : ∀ e ∈ es, e ≠ ['.'] ∧ e ≠ ['.', '.'])
    (fuel : Nat) (out : GoString) (hf : (joinSlash es).length ≤ fuel) (ho : 1 ≤ out.length) :
    cleanLoop true fuel (joinSlash es) out 1
      = if joinSlash es = [] then out
        else (if out.length ≠ 1 then out ++ ['/'] else out) ++ stripSlash (joinSlash es) := by
  induction es generalizing fuel out with
  | nil => simp [joinSlash, cleanLoop_nil]
  | cons e es ih =>
    have hse : '/' ∉ e := h1 e (by simp)
    have hde := h3 e (by simp)
    cases es with
    | nil =>
      simp only [joinSlash] at hf ⊢
      by_cases he : e = []
      · simp [he, cleanLoop_nil]
      · obtain ⟨f, rfl⟩ : ∃ f, fuel = f + 1 := by
          have : 0 < e.length := List.length_pos.2 he
          exact ⟨fuel - 1, by omega⟩
        have := cleanLoop_element f e [] out he hse hde.1 hde.2 (Or.inl rfl)
        rw [List.append_nil] at this
        rw [this, cleanLoop_nil, stripSlash_element e hse, if_neg he]
    | cons e2 es =>
      have he : e ≠ [] := h2 e (by simp [List.dropLast])
      have hpos : 0 < e.length := List.length_pos.2 he
      simp only [joinSlash, List.length_append, List.length_cons] at hf ⊢
      obtain ⟨f, rfl⟩ : ∃ f, fuel = f + 2 := ⟨fuel - 2, by omega⟩
      rw [cleanLoop_element (f + 1) e _ out he hse hde.1 hde.2 (Or.inr (List.head?_cons ..)),
        cleanLoop_slash]
      have hlen : 1 ≤ ((if out.length ≠ 1 then out ++ ['/'] else out) ++ e).length := by
        simp only [List.length_append]; omega
      have hlen2 : ((if out.length ≠ 1 then out ++ ['/'] else out) ++ e).length ≠ 1 := by
        simp only [List.length_append]
        split
        · simp only [List.length_append, List.length_singleton]; omega
        · omega
      rw [ih (fun x hx => h1 x (by simp [hx])) (fun x hx => h2 x (by simp [List.dropLast, hx]))
        (fun x hx => h3 x (by simp [hx])) f _ (by omega) hlen, stripSlash_step, if_pos hlen2]
      have hne : e ++ '/' :: joinSlash (e2 :: es) ≠ [] := by simp
      rw [if_neg hne]
      by_cases hj : joinSlash (e2 :: es) = []
      · simp [hj]
      · simp [hj]

/-- The function `cleanPath` leaves a canonical path as it is. -/
theorem cleanPath_canonical (p : GoString) (h : isCanonical p = true) : cleanPath p = p := by
  cases p with
  | nil => simp [isCanonical] at h
  | cons c t =>
    simp only [isCanonical, List.head?_cons, List.tail_cons, Bool.and_eq_true, decide_eq_true_eq,
      List.all_eq_true, Option.some.injEq] at h
    obtain ⟨⟨rfl, h2⟩, h3⟩ := h
    have hloop := cleanLoop_elements (elements t) (elements_no_slash t)
      (fun e he => by simpa using h2 e he)
      (fun e he => by simpa using h3 e he) ('/' :: t).length ['/']
      (by rw [joinSlash_elements]; simp) (by simp)
    rw [joinSlash_elements] at hloop
    simp only [List.length_singleton, ne_eq, not_true_eq_false, if_false] at hloop
    have hclean : Clean ('/' :: t) = if t = [] then ['/'] else '/' :: stripSlash t := by
      simp only [Clean, reduceCtorEq, if_false, List.head?_cons, decide_True, if_true,
        List.tail_cons, hloop]
      split <;> simp
    simp only [cleanPath, reduceCtorEq, if_false, List.head?_cons, ne_eq, not_true_eq_false,
      hclean]
    by_cases ht : t = []
    · simp [ht]
    · simp only [ht, if_false]
      unfold stripSlash
      by_cases hl : t.getLast? = some '/'
      · have hlast : ('/' :: t).getLast? = some '/' := by
          rw [List.getLast?_cons]
          simp [hl]
        have htl : t.dropLast ++ ['/'] = t := by
          have := List.dropLast_append_getLast? '/' (by simpa using hl)
          exact this
        simp only [hl, if_true, hlast, true_and]
        split
        · split
          · rfl
          · simp [htl]
        · next hn =>
          have hd : t.dropLast = [] := by simpa using hn
          rw [hd, List.nil_append] at htl
          subst htl
          exact absurd rfl (h2 [] (by decide))
      · have hlast : ¬ ('/' :: t).getLast? = some '/' := by
          rw [List.getLast?_cons]
          cases hq : t.getLast? with
          | none => exact absurd (by simpa using hq) ht
          | some x => simpa [hq] using hl
        simp [hl, hlast]

/-- The bound on the iterations of `cleanLoop` is never what ends the loop: any
two bounds of at least the length of the unread rest give the same result. -/
theorem cleanLoop_fuel (rooted : Bool) (fuel fuel' : Nat) (rest out : GoString) (dotdot : Nat)
    (h : rest.length ≤ fuel) (h' : rest.length ≤ fuel') :
    cleanLoop rooted fuel rest out dotdot = cleanLoop rooted fuel' rest out dotdot := by
  induction fuel generalizing fuel' rest out dotdot with
  | zero =>
    have hr : rest = [] := List.length_eq_zero.1 (Nat.le_zero.1 h)
    subst hr
    cases fuel' <;> rfl
  | succ fuel ih =>
    cases rest with
    | nil => cases fuel' <;> rfl
    | cons c cs =>
      obtain ⟨f, rfl⟩ : ∃ f, fuel' = f + 1 := ⟨fuel' - 1, by simp at h'; omega⟩
      simp only [List.length_cons, Nat.add_le_add_iff_right] at h h'
      have ht : cs.tail.length ≤ cs.length := by simp
      have hdl : c ≠ '/' → ((c :: cs).dropWhile fun x => decide (x ≠ '/')).length ≤ cs.length := by
        intro hc
        have hdw : (c :: cs).dropWhile (fun x => decide (x ≠ '/'))
            = cs.dropWhile fun x => decide (x ≠ '/') := by
          simp [List.dropWhile, hc]
        rw [hdw]
        exact List.Sublist.length_le (List.dropWhile_sublist _)
      rw [cleanLoop, cleanLoop]
      split_ifs with h1
      all_goals first
        | exact ih _ _ _ _ h h'
        | exact ih _ _ _ _ (by omega) (by omega)
        | exact ih _ _ _ _ (by have := hdl h1; omega) (by have := hdl h1; omega)

/-! ## Lemmas on the router -/

theorem mainMux_eq : mainMux = some registered := by
  decide

theorem registered_lookup (p : GoString) :
    registered.m.lookup p
      = if p = "/api".toList then some { h := .HandlerFunc .apiHandler, pattern := "/api".toList }
        else if p = "/".toList then some { h := .HandlerFunc .helloHandler, pattern := "/".toList }
        else none := by
  simp only [registered, List.lookup]
  by_cases h1 : p = "/api".toList
  · subst h1; rfl
  · by_cases h2 : p = "/".toList
    · subst h2; rfl
    · have e1 : (p == "/api".toList) = false := by simpa using h1
      have e2 : (p == "/".toList) = false := by simpa using h2
      simp only [e1, e2, h1, h2, if_false]

theorem registered_lookup_slash (c : GoString) (hc : c ≠ []) :
    registered.m.lookup (c ++ ['/']) = none := by
  rw [registered_lookup]
  have h1 : c ++ ['/'] ≠ "/api".toList := by
    intro h
    have := congrArg List.getLast? h
    simp at this
  have h2 : c ++ ['/'] ≠ "/".toList := by
    intro h
    have hlen : (c ++ ['/']).length = 1 := by rw [h]; rfl
    have hl : 0 < c.length := List.length_pos.2 hc
    rw [List.length_append, List.length_singleton] at hlen
    omega
  simp only [h1, h2, if_false]

theorem registered_no_redirect (host path : GoString) :
    registered.redirectToPathSlash host path = none := by
  have hs : registered.shouldRedirectRLocked host path = false := by
    unfold ServeMux.shouldRedirectRLocked
    simp only
    split_ifs with a b c
    · rfl
    · rfl
    · exfalso
      have hp : path ≠ [] := fun h => b (by rw [h]; rfl)
      have hhp : host ++ path ≠ [] := by simp [hp]
      have e1 := registered_lookup_slash _ hp
      have e2 := registered_lookup_slash _ hhp
      rw [List.any_cons, List.any_cons, List.any_nil, e1, e2] at c
      exact absurd c (by decide)
    · rfl
  simp [ServeMux.redirectToPathSlash, hs]

theorem registered_handler (host path : GoString) :
    registered.handler host path
      = if path = "/api".toList then (.HandlerFunc .apiHandler, "/api".toList)
        else if path.head? = some '/' then (.HandlerFunc .helloHandler, "/".toList)
        else (.NotFoundHandler, []) := by
  have hm : registered.match path
      = if path = "/api".toList then some (.HandlerFunc .apiHandler, "/api".toList)
        else if path.head? = some '/' then some (.HandlerFunc .helloHandler, "/".toList)
        else none := by
    unfold ServeMux.match
    rw [registered_lookup]
    by_cases h1 : path = "/api".toList
    · simp [h1]
    · by_cases h2 : path = "/".toList
      · subst h2; rfl
      · simp only [h1, h2, if_false]
        cases path with
        | nil => rfl
        | cons c cs =>
          by_cases hc : c = '/'
          · subst hc
            simp [registered, HasPrefix, List.isPrefixOf]
          · have hc' : ¬ '/' = c := fun h => hc h.symm
            simp [registered, HasPrefix, List.isPrefixOf, hc, hc']
  unfold ServeMux.handler
  have hh : registered.hosts = false := rfl
  simp only [hh, Bool.false_eq_true, if_false, Option.isNone_none, if_true, hm]
  split_ifs <;> rfl

/-- The handler and the pattern the router of `main` selects, for every request. -/
theorem registered_Handler (stripHostPort : GoString → GoString) (r : Request) :
    registered.Handler stripHostPort r
      = if r.Method ≠ "CONNECT".toList ∧ cleanPath r.URL.Path ≠ r.URL.Path then
          (.RedirectHandler (cleanPath r.URL.Path) r.URL.RawQuery StatusMovedPermanently,
            (registered.handler (stripHostPort r.Host) (cleanPath r.URL.Path)).2)
        else if r.URL.Path = "/api".toList then (.HandlerFunc .apiHandler, "/api".toList)
        else if r.URL.Path.head? = some '/' then (.HandlerFunc .helloHandler, "/".toList)
        else (.NotFoundHandler, []) := by
  unfold ServeMux.Handler
  by_cases hm : r.Method = "CONNECT".toList
  · simp only [hm, if_true, registered_no_redirect, registered_handler, ne_eq, not_true_eq_false,
      false_and, if_false]
  · simp only [hm, if_false, registered_no_redirect, ne_eq, not_false_eq_true, true_and]
    by_cases hp : cleanPath r.URL.Path = r.URL.Path
    · simp only [hp, not_true_eq_false, if_false, registered_handler]
    · simp only [hp, not_false_eq_true, if_true]

theorem head_of_canonical (p : GoString) (h : isCanonical p = true) : p.head? = some '/' := by
  simp only [isCanonical, Bool.and_eq_true, decide_eq_true_eq] at h
  exact h.1.1

/-- On a canonical path other than `/api` the router of `main` selects
`helloHandler` under the pattern `/`, on `/api` it selects `apiHandler`. -/
theorem registered_Handler_canonical (stripHostPort : GoString → GoString) (r : Request)
    (h : isCanonical r.URL.Path = true) :
    registered.Handler stripHostPort r
      = if r.URL.Path = "/api".toList then (.HandlerFunc .apiHandler, "/api".toList)
        else (.HandlerFunc .helloHandler, "/".toList) := by
  rw [registered_Handler, cleanPath_canonical _ h, head_of_canonical _ h]
  simp

/-- The response of the router of `main` to a request with a canonical path. -/
theorem registered_ServeHTTP_canonical (stripHostPort : GoString → GoString) (now : Time)
    (w : ResponseWriter) (r : Request) (hu : r.RequestURI ≠ "*".toList)
    (h : isCanonical r.URL.Path = true) :
    registered.ServeHTTP stripHostPort now w r
      = if r.URL.Path = "/api".toList then apiHandler now w r else helloHandler now w r := by
  unfold ServeMux.ServeHTTP
  rw [if_neg hu, registered_Handler_canonical _ _ h]
  split_ifs <;> rfl

/-! ## The handlers on a fresh response -/

theorem helloHandler_fresh (now : Time) (r : Request) :
    ∃ ts, now.Format "2006-01-02 15:04:05".toList = some ts ∧
      helloHandler now ResponseWriter.fresh r = some (written "text/html".toList (page ts r)) := by
  obtain ⟨ts, hts, h⟩ := helloHandler_eq now ResponseWriter.fresh r
  exact ⟨ts, hts, by rw [h, fresh_write, contentType_canonical]; rfl⟩

theorem apiHandler_fresh (now : Time) (r : Request) :
    ∃ ts, now.Format RFC3339 = some ts ∧ (∀ c ∈ ts, isPlainChar c = true) ∧
      apiHandler now ResponseWriter.fresh r
        = some (written "application/json".toList (jsonHead ++ ts ++ jsonTail)) := by
  obtain ⟨ts, hts, hp, h⟩ := apiHandler_eq now ResponseWriter.fresh r
  exact ⟨ts, hts, hp, by rw [h, fresh_write, contentType_canonical]; rfl⟩

theorem written_body (contentType body : GoString) : (written contentType body).body = body := by
  simp [written, ResponseWriter.body]

theorem Write_header_Get (w : ResponseWriter) (k v data : GoString) :
    ((w.setHeader k v).Write data).header.Get k = v := by
  have h1 : ((w.setHeader k v).Write data).header = w.header.Set k v := by
    unfold ResponseWriter.Write ResponseWriter.commit ResponseWriter.setHeader
    simp only
    split_ifs <;> rfl
  rw [h1]
  simp [Header.Get, Header.Set, List.lookup]

set_option maxRecDepth 100000 in
theorem html_count : html.count '%' = 4 := by
  decide

set_option maxRecDepth 100000 in
theorem html_length : html.length = htmlHead.length + htmlMethod.length + htmlPath.length
    + htmlAgent.length + htmlTail.length + 8 := by
  decide

set_option maxRecDepth 100000 in
theorem html_len : len html = len htmlHead + len htmlMethod + len htmlPath + len htmlAgent
    + len htmlTail + 8 := by
  decide

theorem htmlAgent_eq : htmlAgent = "<br>\n\t\t\t\t".toList ++ "User Agent: ".toList := by
  decide

theorem userAgent_canonical : CanonicalMIMEHeaderKey "User-Agent".toList = "User-Agent".toList := by
  decide

/-! ## Start-up -/

set_option maxRecDepth 100000 in
theorem main_eq (ListenAndServe : GoString → ServeMux → Option GoString) (now : Time) :
    main ListenAndServe now = some (
      match ListenAndServe ":8080".toList registered with
      | some err => Fatal started now [.string "Server failed to start:".toList, .error err]
      | none => { started with exit := some 0 }) := by
  have hrun : main ListenAndServe now = (match ListenAndServe ":8080".toList registered with
      | some err => some (Fatal started now [.string "Server failed to start:".toList, .error err])
      | none => some { started with exit := some 0 }) := by
    rfl
  rw [hrun]
  cases ListenAndServe ":8080".toList registered <;> rfl

theorem logOutput_fatal (now : Time) (err : GoString) :
    logOutput now (Sprint [.string "Server failed to start:".toList, .error err])
      = formatHeader now ++ "Server failed to start:".toList ++ err
          ++ (if err.getLast? = some '\n' then [] else ['\n']) := by
  have hs : Sprint [.string "Server failed to start:".toList, .error err]
      = "Server failed to start:".toList ++ err := by
    simp [Sprint, doPrint]
  rw [hs, logOutput]
  have hl : ("Server failed to start:".toList ++ err).getLast? = some '\n'
      ↔ err.getLast? = some '\n' := by
    cases err with
    | nil => decide
    | cons c cs => rw [List.getLast?_append_of_ne_nil _ (by simp)]
  simp only [hl, List.append_assoc]

/-! ## The properties of the program -/

/-- C1, as stated, fails: the request `GET /nonexistent` names neither registered
path, yet the router of `main` answers it with status 200, not 404, and the
response is the one `helloHandler` writes. -/
theorem unregistered_path_is_not_404 :
    (request "GET" "/nonexistent" "curl/8.5.0").URL.Path ≠ "/".toList
    ∧ (request "GET" "/nonexistent" "curl/8.5.0").URL.Path ≠ "/api".toList
    ∧ ∃ w, (mainMux.bind fun mux => mux.ServeHTTP dropPort noon ResponseWriter.fresh
              (request "GET" "/nonexistent" "curl/8.5.0")) = some w
        ∧ w.status = 200 ∧ w.status ≠ 404
        ∧ helloHandler noon ResponseWriter.fresh (request "GET" "/nonexistent" "curl/8.5.0") = some w := by
  refine ⟨by decide, by decide, ?_⟩
  obtain ⟨ts, -, h⟩ := helloHandler_fresh noon (request "GET" "/nonexistent" "curl/8.5.0")
  refine ⟨written "text/html".toList (page ts (request "GET" "/nonexistent" "curl/8.5.0")), ?_, rfl,
    by simp [written], h⟩
  rw [mainMux_eq, Option.some_bind,
    registered_ServeHTTP_canonical _ _ _ _ (by decide) (by decide), if_neg (by decide), h]

/-- C1, amended: a request whose path is in canonical form and is not `/api`, so
also one whose path is neither `/` nor `/api`, is answered by the router of `main`
with status 200, content type `text/html` and the HTML page of `helloHandler`
for that request. -/
theorem unregistered_path_gets_hello_page (stripHostPort : GoString → GoString) (now : Time)
    (r : Request) (hu : r.RequestURI ≠ "*".toList) (hc : isCanonical r.URL.Path = true)
    (h : r.URL.Path ≠ "/api".toList) :
    ∃ w ts, (mainMux.bind fun mux => mux.ServeHTTP stripHostPort now ResponseWriter.fresh r) = some w
      ∧ now.Format "2006-01-02 15:04:05".toList = some ts
      ∧ w.status = 200
      ∧ w.sent = [("Content-Type".toList, ["text/html".toList])]
      ∧ w.body = htmlHead ++ ts ++ htmlMethod ++ r.Method ++ htmlPath ++ r.URL.Path ++ htmlAgent
          ++ r.UserAgent ++ htmlTail := by
  obtain ⟨ts, hts, hw⟩ := helloHandler_fresh now r
  refine ⟨written "text/html".toList (page ts r), ts, ?_, hts, rfl, rfl, written_body _ _⟩
  rw [mainMux_eq, Option.some_bind, registered_ServeHTTP_canonical _ _ _ _ hu hc, if_neg h, hw]

/-- The amended C1 at the request `DELETE /no/such/page`. -/
theorem unregistered_path_gets_hello_page_witness :
    ∃ w ts, (mainMux.bind fun mux => mux.ServeHTTP dropPort noon ResponseWriter.fresh
        (request "DELETE" "/no/such/page" "curl/8.5.0")) = some w
      ∧ noon.Format "2006-01-02 15:04:05".toList = some ts
      ∧ w.status = 200
      ∧ w.sent = [("Content-Type".toList, ["text/html".toList])]
      ∧ w.body = htmlHead ++ ts ++ htmlMethod ++ "DELETE".toList ++ htmlPath ++ "/no/such/page".toList
          ++ htmlAgent ++ "curl/8.5.0".toList ++ htmlTail :=
  unregistered_path_gets_hello_page dropPort noon (request "DELETE" "/no/such/page" "curl/8.5.0")
    (by decide) (by decide) (by decide)

/-- C2: for every request and every clock reading, `helloHandler` sets the
Content-Type field to exactly `text/html` (in the header map and in the header
sent) and writes a body in which the request's method and URL path occur as they
are, as contiguous substrings. -/
theorem helloHandler_content_type_and_echo (now : Time) (r : Request) :
    ∃ w, helloHandler now ResponseWriter.fresh r = some w
      ∧ w.header.Get "Content-Type".toList = "text/html".toList
      ∧ w.header = [("Content-Type".toList, ["text/html".toList])]
      ∧ w.sent = [("Content-Type".toList, ["text/html".toList])]
      ∧ r.Method <:+: w.body
      ∧ r.URL.Path <:+: w.body := by
  obtain ⟨ts, -, hw⟩ := helloHandler_fresh now r
  refine ⟨written "text/html".toList (page ts r), hw, rfl, rfl, rfl, ?_, ?_⟩
  · rw [written_body]
    exact ⟨htmlHead ++ ts ++ htmlMethod, htmlPath ++ r.URL.Path ++ htmlAgent ++ r.UserAgent ++ htmlTail,
      by simp [page]⟩
  · rw [written_body]
    exact ⟨htmlHead ++ ts ++ htmlMethod ++ r.Method ++ htmlPath, htmlAgent ++ r.UserAgent ++ htmlTail,
      by simp [page]⟩

/-- C4: for every request, the body `helloHandler` writes ends with the text
`User Agent: `, then the value of the request's User-Agent field, character for
character, then the fixed rest of the template; the value is the first one under
the field name, and the empty string when the request has no such field. -/
theorem helloHandler_user_agent_verbatim (now : Time) (r : Request) :
    ∃ w ts, helloHandler now ResponseWriter.fresh r = some w
      ∧ now.Format "2006-01-02 15:04:05".toList = some ts
      ∧ w.body = (htmlHead ++ ts ++ htmlMethod ++ r.Method ++ htmlPath ++ r.URL.Path
          ++ "<br>\n\t\t\t\t".toList) ++ "User Agent: ".toList ++ r.UserAgent ++ htmlTail
      ∧ (r.Header.lookup "User-Agent".toList = none → r.UserAgent = [])
      ∧ (∀ v vs, r.Header.lookup "User-Agent".toList = some (v :: vs) → r.UserAgent = v) := by
  obtain ⟨ts, hts, hw⟩ := helloHandler_fresh now r
  refine ⟨written "text/html".toList (page ts r), ts, hw, hts, ?_, ?_, ?_⟩
  · rw [written_body, page, htmlAgent_eq]
    simp only [List.append_assoc]
  · intro h
    unfold Request.UserAgent Header.Get
    rw [userAgent_canonical, h]
  · intro v vs h
    unfold Request.UserAgent Header.Get
    rw [userAgent_canonical, h]

/-- C5: for every request, whatever its method, the router of `main` selects
`helloHandler` when the path is exactly `/` and `apiHandler` when the path is
exactly `/api`; and it passes the request on to that handler, which alone
produces the response. -/
theorem registered_paths_dispatch (stripHostPort : GoString → GoString) (now : Time)
    (w : ResponseWriter) (r : Request)
    (h : r.URL.Path = "/".toList ∨ r.URL.Path = "/api".toList) :
    mainMux.map (fun mux => mux.Handler stripHostPort r)
        = some (if r.URL.Path = "/".toList then (.HandlerFunc .helloHandler, "/".toList)
                else (.HandlerFunc .apiHandler, "/api".toList))
    ∧ (r.RequestURI ≠ "*".toList →
        (mainMux.bind fun mux => mux.ServeHTTP stripHostPort now w r)
          = if r.URL.Path = "/".toList then helloHandler now w r else apiHandler now w r) := by
  have hc : isCanonical r.URL.Path = true := by
    rcases h with h | h <;> rw [h] <;> decide
  constructor
  · rw [mainMux_eq, Option.map_some', registered_Handler_canonical _ _ hc]
    rcases h with h | h <;> rw [h] <;> rfl
  · intro hu
    rw [mainMux_eq, Option.some_bind, registered_ServeHTTP_canonical _ _ _ _ hu hc]
    rcases h with h | h <;> rw [h] <;> rfl

/-- C5 at the request `PATCH /api`, whose request-target is not `*`. -/
theorem registered_paths_dispatch_witness :
    (mainMux.map (fun mux => mux.Handler dropPort (request "PATCH" "/api" "curl/8.5.0"))
        = some (if (request "PATCH" "/api" "curl/8.5.0").URL.Path = "/".toList
                then (.HandlerFunc .helloHandler, "/".toList)
                else (.HandlerFunc .apiHandler, "/api".toList))
    ∧ ((request "PATCH" "/api" "curl/8.5.0").RequestURI ≠ "*".toList →
        (mainMux.bind fun mux => mux.ServeHTTP dropPort noon ResponseWriter.fresh
            (request "PATCH" "/api" "curl/8.5.0"))
          = if (request "PATCH" "/api" "curl/8.5.0").URL.Path = "/".toList
            then helloHandler noon ResponseWriter.fresh (request "PATCH" "/api" "curl/8.5.0")
            else apiHandler noon ResponseWriter.fresh (request "PATCH" "/api" "curl/8.5.0")))
    ∧ (request "PATCH" "/api" "curl/8.5.0").RequestURI ≠ "*".toList :=
  ⟨registered_paths_dispatch dropPort noon ResponseWriter.fresh (request "PATCH" "/api" "curl/8.5.0")
    (Or.inr rfl), by decide⟩

/-- C6: the response of `apiHandler` does not depend on the request: at one clock
reading and from one state of the response writer, any two requests leave the
same response, header and body. -/
theorem apiHandler_ignores_request (now : Time) (w : ResponseWriter) (r₁ r₂ : Request) :
    ∃ w', apiHandler now w r₁ = some w' ∧ apiHandler now w r₂ = some w'
      ∧ w'.header.Get "Content-Type".toList = "application/json".toList := by
  obtain ⟨ts, -, -, h₁⟩ := apiHandler_eq now w r₁
  have h₂ : apiHandler now w r₂ = apiHandler now w r₁ := rfl
  exact ⟨(w.setHeader "Content-Type".toList "application/json".toList).Write
    (jsonHead ++ ts ++ jsonTail), h₁, h₂.trans h₁, Write_header_Get _ _ _ _⟩

/-- C7: when the listen-and-serve call returns an error, `main` writes to standard
error one log line, whose message is `Server failed to start:` followed by the
error, and ends the process with exit status 1; it does not end with status 0. -/
theorem main_fatal_on_listen_error (ListenAndServe : GoString → ServeMux → Option GoString)
    (now : Time) (err : GoString)
    (h : mainMux.bind (ListenAndServe ":8080".toList) = some err) :
    ∃ p, main ListenAndServe now = some p
      ∧ p.exit = some 1
      ∧ p.exit ≠ some 0
      ∧ p.stderr = formatHeader now ++ "Server failed to start:".toList ++ err
          ++ (if err.getLast? = some '\n' then [] else ['\n']) := by
  rw [mainMux_eq, Option.some_bind] at h
  refine ⟨_, main_eq ListenAndServe now, ?_, ?_, ?_⟩
  · rw [h]; rfl
  · rw [h]; simp [Fatal]
  · rw [h]
    simp only [Fatal, started, List.nil_append]
    exact logOutput_fatal now err

/-- C7 when the port is already in use. -/
theorem main_fatal_on_listen_error_witness :
    ∃ p, main (fun _ _ => some "listen tcp :8080: bind: address already in use".toList) noon = some p
      ∧ p.exit = some 1
      ∧ p.exit ≠ some 0
      ∧ p.stderr = formatHeader noon ++ "Server failed to start:".toList
          ++ "listen tcp :8080: bind: address already in use".toList
          ++ (if "listen tcp :8080: bind: address already in use".toList.getLast? = some '\n'
              then [] else ['\n']) :=
  main_fatal_on_listen_error (fun _ _ => some "listen tcp :8080: bind: address already in use".toList)
    noon "listen tcp :8080: bind: address already in use".toList (by decide)

/-- C8: for every request, `helloHandler` and `apiHandler` each pass no status code
to `WriteHeader` and call `Write` exactly once, and the data of that one call is the
whole body: for `helloHandler` the string `response` that `Sprintf` makes of the
template, that is the page with the formatted time, the method, the path and the
user agent; for `apiHandler` the JSON text around the timestamp. The status of the
response, committed by that call, is the default 200. -/
theorem handlers_write_once_status_200 (now : Time) (r : Request) :
    ∃ wh wa th ta, helloHandler now ResponseWriter.fresh r = some wh
      ∧ apiHandler now ResponseWriter.fresh r = some wa
      ∧ now.Format "2006-01-02 15:04:05".toList = some th
      ∧ now.Format RFC3339 = some ta
      ∧ Sprintf html [.string th, .string r.Method, .string r.URL.Path, .string r.UserAgent]
          = some (htmlHead ++ th ++ htmlMethod ++ r.Method ++ htmlPath ++ r.URL.Path ++ htmlAgent
              ++ r.UserAgent ++ htmlTail)
      ∧ wh.codes = [] ∧ wh.writes.length = 1
      ∧ wh.writes = [htmlHead ++ th ++ htmlMethod ++ r.Method ++ htmlPath ++ r.URL.Path ++ htmlAgent
          ++ r.UserAgent ++ htmlTail]
      ∧ wh.writes = [wh.body]
      ∧ wh.wroteHeader = true ∧ wh.status = 200
      ∧ wa.codes = [] ∧ wa.writes.length = 1
      ∧ wa.writes = [jsonHead ++ ta ++ jsonTail]
      ∧ wa.writes = [wa.body]
      ∧ wa.wroteHeader = true ∧ wa.status = 200 := by
  obtain ⟨th, hth, hh⟩ := helloHandler_fresh now r
  obtain ⟨ta, hta, -, ha⟩ := apiHandler_fresh now r
  exact ⟨written "text/html".toList (page th r),
    written "application/json".toList (jsonHead ++ ta ++ jsonTail), th, ta, hh, ha, hth, hta,
    Sprintf_html th r.Method r.URL.Path r.UserAgent,
    rfl, rfl, rfl, by rw [written_body]; rfl, rfl, rfl,
    rfl, rfl, rfl, by rw [written_body]; rfl, rfl, rfl⟩

/-- C9: for every method, path and user agent, whatever characters they hold, the
body `helloHandler` writes is the template with its four `%s` replaced, in order, by
the formatted time, the method, the path and the user agent. The template is five
pieces of text around four `%s` and holds no other `%`; the inserted strings are
copied, not read as format text; the length of the body is the length of the
template minus 8 plus the lengths of the four strings, counted in characters and
counted in bytes. -/
theorem helloHandler_body_is_template (now : Time) (r : Request) :
    ∃ w ts, helloHandler now ResponseWriter.fresh r = some w
      ∧ now.Format "2006-01-02 15:04:05".toList = some ts
      ∧ html = htmlHead ++ "%s".toList ++ htmlMethod ++ "%s".toList ++ htmlPath ++ "%s".toList
          ++ htmlAgent ++ "%s".toList ++ htmlTail
      ∧ html.count '%' = 4
      ∧ w.body = htmlHead ++ ts ++ htmlMethod ++ r.Method ++ htmlPath ++ r.URL.Path ++ htmlAgent
          ++ r.UserAgent ++ htmlTail
      ∧ w.body.length
          = html.length - 8 + ts.length + r.Method.length + r.URL.Path.length + r.UserAgent.length
      ∧ len w.body = len html - 8 + len ts + len r.Method + len r.URL.Path + len r.UserAgent := by
  obtain ⟨ts, hts, hw⟩ := helloHandler_fresh now r
  have hlen := html_length
  have hlen' := html_len
  refine ⟨written "text/html".toList (page ts r), ts, hw, hts, ?_, html_count, written_body _ _,
    ?_, ?_⟩
  · rw [html_eq]; simp
  · rw [written_body, hlen, page]
    simp only [List.length_append]
    omega
  · rw [written_body, hlen', page]
    simp only [len_append]
    omega

/-- C10: for every request whose path is in canonical form and is not `/api`, the
router of `main` selects `helloHandler`, under the pattern `/`. -/
theorem root_pattern_catches_all (stripHostPort : GoString → GoString) (r : Request)
    (hc : isCanonical r.URL.Path = true) (h : r.URL.Path ≠ "/api".toList) :
    mainMux.map (fun mux => mux.Handler stripHostPort r)
      = some (.HandlerFunc .helloHandler, "/".toList) := by
  rw [mainMux_eq, Option.map_some', registered_Handler_canonical _ _ hc, if_neg h]

/-- C10 at the paths `/api/`, `/api/x` and `/nonexistent`. -/
theorem root_pattern_catches_all_witness :
    mainMux.map (fun mux => mux.Handler dropPort (request "GET" "/api/" "curl/8.5.0"))
        = some (.HandlerFunc .helloHandler, "/".toList)
    ∧ mainMux.map (fun mux => mux.Handler dropPort (request "GET" "/api/x" "curl/8.5.0"))
        = some (.HandlerFunc .helloHandler, "/".toList)
    ∧ mainMux.map (fun mux => mux.Handler dropPort (request "GET" "/nonexistent" "curl/8.5.0"))
        = some (.HandlerFunc .helloHandler, "/".toList) :=
  ⟨root_pattern_catches_all dropPort (request "GET" "/api/" "curl/8.5.0") (by decide) (by decide),
    root_pattern_catches_all dropPort (request "GET" "/api/x" "curl/8.5.0") (by decide) (by decide),
    root_pattern_catches_all dropPort (request "GET" "/nonexistent" "curl/8.5.0") (by decide)
      (by decide)⟩

end Capstone
